import Mathlib

set_option linter.unusedVariables false

/-!
# Verification of the opti-ai pricing / backtesting / paper-trading core

Shallow embedding of the repository's core logic:

* `src/ibkr-integration.py` — `PaperTrading` (order fills, position accounting,
  cash balance, portfolio summary).  Python floats carry only finite values on
  these code paths (`+`, `-`, `*`, and a division whose divisor is checked
  nonzero by the surrounding branch), so prices and cash are modelled as `ℚ`
  and quantities as `ℤ`.  The Python `dict` of positions is modelled as an
  association list in insertion order.
* `src/sys/options-analysis.py` — `OptionsStrategy.calculate_greeks`,
  `OptionsStrategy.calculate_pnl`, `BacktestEngine.run_backtest`.
  `_norm_cdf` computes `(1 + np.erf(x/np.sqrt(2))) / 2`, but numpy has no
  `erf` attribute: the first branch of every loop iteration of
  `calculate_greeks` raises `AttributeError`, so the function returns only
  for a leg-free strategy (the all-zero totals dict).  An uncaught Python
  raise is modelled as `none` throughout.  `calculate_pnl` is dominated by
  pandas label alignment: its zero series is indexed by the candidate price
  *values*, each leg's term series keeps the input's positional labels
  `0, …, n-1`, and `+=` aligns by label, turning labels present on one side
  only into `NaN`.  `run_backtest` therefore raises for every legged
  strategy with a nonempty series; for a leg-free strategy the label lookup
  `calculate_pnl(...)[0]` raises `KeyError` unless the close is `0.0`; and
  `pd.concat([])` raises when no strategy is registered.
* `src/reporting-module.py` — `ReportGenerator.calculate_risk_metrics`,
  with pandas/numpy reductions (`pct_change`, `dropna`, `percentile`, `mean`,
  `std`, `cumprod`, expanding `max`, `min`) embedded over lists of `EF`
  (finite real, `+∞`, `-∞`, `NaN` with the IEEE-754 propagation rules numpy
  implements).

Modelling conventions, recorded once here:
* `datetime` subtraction: each option leg stores `expiryDays : ℤ`, the value
  of `(expiry - datetime.now()).days` at evaluation time; the code's
  time-to-expiry is then `expiryDays / 365` by true division.
* a `pd.Series` whose index matters is modelled as a list of
  `(label, value)` pairs with label-aligned addition (`seriesAdd`) and
  label lookup (`lookupLabel`); a series used purely as a value vector
  (the reporting module's derived columns) is modelled as a plain list.
* wall-clock timestamps on orders are omitted.
-/

namespace OptiAI

/-! ## Paper trading engine (`src/ibkr-integration.py`, class `PaperTrading`) -/

/-- `Position` dataclass of `ibkr-integration.py`. -/
structure Position where
  contract_id : ℕ
  symbol : String
  quantity : ℤ
  average_cost : ℚ
  market_value : ℚ
  unrealized_pnl : ℚ
  realized_pnl : ℚ
deriving DecidableEq, Repr

/-- One entry of `PaperTrading.orders` (the dict built in `place_order`;
wall-clock `timestamp` omitted). -/
structure PaperOrder where
  order_id : ℕ
  symbol : String
  quantity : ℤ
  order_type : String
  status : String
  filled_price : ℚ
deriving DecidableEq, Repr

/-- The mutable state touched by `PaperTrading.place_order`:
`self.ibkr.connected`, `self.ibkr._next_order_id`, `self.orders`,
`self.positions` (a dict, modelled as an association list in insertion
order), `self.cash_balance`. -/
structure PaperState where
  connected : Bool
  nextOrderId : ℕ
  orders : List (ℕ × PaperOrder)
  positions : List (String × Position)
  cash_balance : ℚ
deriving DecidableEq, Repr

/-- Dict lookup `self.positions[symbol]` / membership test. -/
def lookupPos (ps : List (String × Position)) (s : String) : Option Position :=
  (ps.find? (fun q => q.1 == s)).map Prod.snd

/-- Dict insertion of a fresh key (the `symbol not in self.positions` branch):
appended in insertion order. -/
def setPos (ps : List (String × Position)) (s : String) (p : Position) :
    List (String × Position) :=
  ps ++ [(s, p)]

/-- In-place mutation of the position bound to an existing key. -/
def updatePos (ps : List (String × Position)) (s : String) (p : Position) :
    List (String × Position) :=
  ps.map (fun q => if q.1 == s then (q.1, p) else q)

/-- `del self.positions[symbol]`. -/
def erasePos (ps : List (String × Position)) (s : String) :
    List (String × Position) :=
  ps.filter (fun q => q.1 != s)

/-- Result of one `place_order` call: the successor state, the order dict it
stores, and the value taken by the local variable `realized_pnl` of line 163
(`0` on the branches that never assign it). -/
structure FillResult where
  state : PaperState
  order : PaperOrder
  realizedDelta : ℚ
deriving DecidableEq, Repr

/-- `PaperTrading.place_order(symbol, quantity, order_type)`
(`src/ibkr-integration.py` lines 125–176).  The fill price is the `price`
field of the tick taken from the shared market-data queue, passed here as
`tickPrice`.  The order is unconditionally recorded with status `"FILLED"`;
no branch consults `connected`, resolves a contract, or looks at a limit
price (the signature has no limit-price parameter).

In the `new_quantity != 0` branch the source assigns
`position.quantity = new_quantity` *first* and then reads the already
updated field in the average-cost numerator
(`position.average_cost * position.quantity + execution_price * quantity`),
so the numerator weights the old average cost by the *new* total quantity. -/
def place_order (st : PaperState) (symbol : String) (quantity : ℤ)
    (order_type : String) (tickPrice : ℚ) : FillResult :=
  let order_id := st.nextOrderId
  let execution_price := tickPrice
  let order : PaperOrder :=
    { order_id := order_id, symbol := symbol, quantity := quantity,
      order_type := order_type, status := "FILLED",
      filled_price := execution_price }
  let orders := st.orders ++ [(order_id, order)]
  match lookupPos st.positions symbol with
  | none =>
      let pos : Position :=
        { contract_id := order_id, symbol := symbol, quantity := quantity,
          average_cost := execution_price,
          market_value := (quantity : ℚ) * execution_price,
          unrealized_pnl := 0, realized_pnl := 0 }
      { state :=
          { st with
            nextOrderId := order_id + 1, orders := orders,
            positions := setPos st.positions symbol pos,
            cash_balance := st.cash_balance - (quantity : ℚ) * execution_price },
        order := order, realizedDelta := 0 }
  | some position =>
      let new_quantity := position.quantity + quantity
      if new_quantity = 0 then
        -- Position closed: `realized_pnl` is computed and added to the
        -- `Position` object, which the next source line deletes from the dict.
        let realized_pnl :=
          (execution_price - position.average_cost) * ((|position.quantity| : ℤ) : ℚ)
        { state :=
            { st with
              nextOrderId := order_id + 1, orders := orders,
              positions := erasePos st.positions symbol,
              cash_balance := st.cash_balance - (quantity : ℚ) * execution_price },
          order := order, realizedDelta := realized_pnl }
      else
        -- `position.quantity = new_quantity` happens before the numerator
        -- below reads `position.quantity`.
        let pos : Position :=
          { position with
            quantity := new_quantity,
            average_cost :=
              (position.average_cost * (new_quantity : ℚ) +
                execution_price * (quantity : ℚ)) / (new_quantity : ℚ),
            market_value := (new_quantity : ℚ) * execution_price }
        { state :=
            { st with
              nextOrderId := order_id + 1, orders := orders,
              positions := updatePos st.positions symbol pos,
              cash_balance := st.cash_balance - (quantity : ℚ) * execution_price },
          order := order, realizedDelta := 0 }

/-- Return value of `PaperTrading.get_portfolio_summary`. -/
structure PortfolioSummary where
  cash_balance : ℚ
  market_value : ℚ
  total_value : ℚ
  unrealized_pnl : ℚ
  realized_pnl : ℚ
deriving DecidableEq, Repr

/-- `PaperTrading.get_portfolio_summary` (`src/ibkr-integration.py`
lines 182–194): sums taken over the currently open positions only. -/
def get_portfolio_summary (st : PaperState) : PortfolioSummary :=
  let total_market_value := (st.positions.map (fun q => q.2.market_value)).sum
  let total_unrealized_pnl := (st.positions.map (fun q => q.2.unrealized_pnl)).sum
  let total_realized_pnl := (st.positions.map (fun q => q.2.realized_pnl)).sum
  { cash_balance := st.cash_balance,
    market_value := total_market_value,
    total_value := st.cash_balance + total_market_value,
    unrealized_pnl := total_unrealized_pnl,
    realized_pnl := total_realized_pnl }

/-! ## numpy double arithmetic with IEEE-754 special values

Finite doubles are modelled by exact reals (no rounding); `NaN`, `+∞`, `-∞`
follow the IEEE-754 propagation rules numpy implements (`x/0 = ±∞` for
`x ≠ 0`, `0/0 = NaN`, `∞ - ∞ = NaN`, `∞·0 = NaN`, `sqrt` of a negative
number = `NaN`, and `NaN` absorbing everywhere). -/

inductive EF where
  | nan : EF
  | pinf : EF
  | ninf : EF
  | fin : ℝ → EF

namespace EF

def add : EF → EF → EF
  | nan, _ => nan
  | pinf, nan => nan
  | ninf, nan => nan
  | fin _, nan => nan
  | pinf, ninf => nan
  | pinf, pinf => pinf
  | pinf, fin _ => pinf
  | ninf, pinf => nan
  | ninf, ninf => ninf
  | ninf, fin _ => ninf
  | fin _, pinf => pinf
  | fin _, ninf => ninf
  | fin a, fin b => fin (a + b)

def neg : EF → EF
  | nan => nan
  | pinf => ninf
  | ninf => pinf
  | fin a => fin (-a)

def sub (a b : EF) : EF := add a (neg b)

noncomputable def mul : EF → EF → EF
  | nan, _ => nan
  | pinf, nan => nan
  | ninf, nan => nan
  | fin _, nan => nan
  | pinf, pinf => pinf
  | pinf, ninf => ninf
  | ninf, pinf => ninf
  | ninf, ninf => pinf
  | pinf, fin b => if 0 < b then pinf else if b < 0 then ninf else nan
  | ninf, fin b => if 0 < b then ninf else if b < 0 then pinf else nan
  | fin a, pinf => if 0 < a then pinf else if a < 0 then ninf else nan
  | fin a, ninf => if 0 < a then ninf else if a < 0 then pinf else nan
  | fin a, fin b => fin (a * b)

/-- Division; the divisor `fin 0` is IEEE `+0`, so `x / 0 = ±∞` by the sign
of `x` and `0 / 0 = NaN`, as numpy warns-and-returns. -/
noncomputable def div : EF → EF → EF
  | nan, _ => nan
  | pinf, nan => nan
  | ninf, nan => nan
  | fin _, nan => nan
  | pinf, pinf => nan
  | pinf, ninf => nan
  | ninf, pinf => nan
  | ninf, ninf => nan
  | pinf, fin b => if 0 ≤ b then pinf else ninf
  | ninf, fin b => if 0 ≤ b then ninf else pinf
  | fin _, pinf => fin 0
  | fin _, ninf => fin 0
  | fin a, fin b =>
      if b = 0 then (if 0 < a then pinf else if a < 0 then ninf else nan)
      else fin (a / b)

/-- `x ** 2`. -/
noncomputable def sq (a : EF) : EF := mul a a

noncomputable def sqrt : EF → EF
  | nan => nan
  | pinf => pinf
  | ninf => nan
  | fin a => if 0 ≤ a then fin (Real.sqrt a) else nan

def absE : EF → EF
  | nan => nan
  | pinf => pinf
  | ninf => pinf
  | fin a => fin |a|

def isNan : EF → Bool
  | nan => true
  | _ => false

/-- IEEE `<` (any comparison with `NaN` is false). -/
noncomputable def ltB : EF → EF → Bool
  | nan, _ => false
  | pinf, nan => false
  | ninf, nan => false
  | fin _, nan => false
  | ninf, ninf => false
  | ninf, _ => true
  | pinf, _ => false
  | fin _, ninf => false
  | fin _, pinf => true
  | fin a, fin b => decide (a < b)

/-- Sort order of `np.sort` / `np.percentile`: `-∞ < finite < +∞ < NaN`. -/
noncomputable def leB : EF → EF → Bool
  | nan, nan => true
  | pinf, nan => true
  | ninf, nan => true
  | fin _, nan => true
  | nan, _ => false
  | ninf, _ => true
  | pinf, pinf => true
  | fin _, pinf => true
  | pinf, _ => false
  | fin _, ninf => false
  | fin a, fin b => decide (a ≤ b)

end EF

/-! ## Options analytics (`src/sys/options-analysis.py`) -/

/-- `OptionContract` dataclass.  `expiryDays` is the value of
`(expiry - datetime.now()).days` at the moment `calculate_greeks` runs, so
the code's time-to-expiry is `expiryDays / 365` by true division. -/
structure OptionContract where
  symbol : String
  strike : ℝ
  expiryDays : ℤ
  option_type : String
  position : ℤ
  price : ℝ

/-- `OptionsStrategy`: name, description and its list of legs (appended by
`add_position` in call order). -/
structure OptionsStrategy where
  name : String
  description : String
  positions : List OptionContract

/-- The dict `{'delta':…, 'gamma':…, 'theta':…, 'vega':…}` returned by
`calculate_greeks`. -/
structure Greeks where
  delta : EF
  gamma : EF
  theta : EF
  vega : EF

/-- `OptionsStrategy.calculate_greeks` (lines 25–62).  The totals dict
starts at zero; for each leg the loop computes `tte`, `d1`, `d2` (numpy only
*warns* on `sqrt`/`log` of nonpositive arguments and on division by zero)
and then, as the first statement of either branch, evaluates
`self._norm_cdf(d1)`, whose body is `(1 + np.erf(x/np.sqrt(2))) / 2` —
and numpy has no `erf` attribute.  Every loop iteration therefore raises
`AttributeError` before producing any Greek (with a zero strike and a
Python-float spot, the `current_price / position.strike` inside `d1` raises
`ZeroDivisionError` even earlier; either way the iteration raises).
An uncaught raise is modelled as `none`: the call returns only for a
leg-free strategy, and then returns the all-zero totals dict. -/
def calculate_greeks (s : OptionsStrategy)
    (current_price volatility risk_free_rate : ℝ) : Option Greeks :=
  match s.positions with
  | [] =>
      some { delta := EF.fin 0, gamma := EF.fin 0, theta := EF.fin 0,
             vega := EF.fin 0 }
  | _ :: _ => none

/-- Label lookup `series[L]` for a numeric label on a label-unique pandas
Series, as in `calculate_pnl(...)[0]`; `none` models the `KeyError` raised
when the label is absent. -/
noncomputable def lookupLabel (s : List (ℝ × EF)) (L : ℝ) : Option EF :=
  (s.find? (fun e => decide (e.1 = L))).map Prod.snd

noncomputable def insertLabel (x : ℝ) : List ℝ → List ℝ
  | [] => [x]
  | y :: ys => if x ≤ y then x :: y :: ys else y :: insertLabel x ys

/-- Ascending sort of index labels (pandas sorts the union index). -/
noncomputable def sortLabels (l : List ℝ) : List ℝ := l.foldr insertLabel []

/-- `a.add(b)` — what pandas does for `a += b` — for label-unique Series:
the result is indexed by the ascending union of the two label sets; a label
present on both sides gets the sum of the two values, and a label present
on one side only gets `NaN`.  (Label-unique suffices here: the claims below
use distinct candidate prices.) -/
noncomputable def seriesAdd (a b : List (ℝ × EF)) : List (ℝ × EF) :=
  (sortLabels ((a.map Prod.fst ++ b.map Prod.fst).dedup)).map
    (fun L =>
      (L,
        match lookupLabel a L, lookupLabel b L with
        | some x, some y => EF.add x y
        | _, _ => EF.nan))

/-- One leg's `(payoff - position.price) * position.position` series
(lines 76–81): `np.maximum` and the float arithmetic act on the input
Series' *values*, and the result keeps the input's positional index — entry
`i` carries the `i`-th price's term at label `i`. -/
noncomputable def legTermSeries (pos : OptionContract) (prices : List ℝ) :
    List (ℝ × EF) :=
  (List.range prices.length).map (fun (i : ℕ) =>
    ((i : ℝ),
      EF.fin
        (((if pos.option_type = "call" then max (prices.getD i 0 - pos.strike) 0
           else max (pos.strike - prices.getD i 0) 0) - pos.price) *
          (pos.position : ℝ))))

/-- `OptionsStrategy.calculate_pnl` (lines 68–83) applied to
`pd.Series(prices)` with the default positional `RangeIndex` — the only way
the repository builds the argument.  `pnl = pd.Series(0, index=current_prices)`
is a zero series indexed *by the price values*; each leg's term series keeps
the positional labels `0, …, n-1`; `pnl += …` aligns the two by label
(`seriesAdd`), so labels present on only one side become `NaN`. -/
noncomputable def calculate_pnl (s : OptionsStrategy) (prices : List ℝ) :
    List (ℝ × EF) :=
  s.positions.foldl
    (fun pnl pos => seriesAdd pnl (legTermSeries pos prices))
    (prices.map (fun p => (p, EF.fin 0)))

/-- One row of the historical price table consumed by `run_backtest`. -/
structure Row where
  date : ℕ
  close : ℝ

/-- One record of the backtest output table. -/
structure BRecord where
  date : ℕ
  strategy : String
  price : ℝ
  pnl : EF
  delta : EF
  gamma : EF
  theta : EF
  vega : EF

/-- The `metrics` dict appended for one strategy and one row
(`run_backtest` lines 107–123): Greeks first — which raises for any legged
strategy — then `calculate_pnl(pd.Series([close]))[0]`, a *label* lookup of
`0` on the aligned P&L series, which for a leg-free strategy raises
`KeyError` unless the close price is itself `0.0`.  `none` models an
uncaught raise. -/
noncomputable def mkRecord (volatility risk_free_rate : ℝ)
    (s : OptionsStrategy) (row : Row) : Option BRecord :=
  match calculate_greeks s row.close volatility risk_free_rate with
  | none => none
  | some greeks =>
      match lookupLabel (calculate_pnl s [row.close]) 0 with
      | none => none
      | some pnl =>
          some { date := row.date, strategy := s.name, price := row.close,
                 pnl := pnl, delta := greeks.delta, gamma := greeks.gamma,
                 theta := greeks.theta, vega := greeks.vega }

/-- `BacktestEngine.run_backtest` (lines 93–129).  `self.strategies` is a
dict keyed by strategy name, modelled as the list of its values in
insertion order.  The nested loops append one record per strategy per row
(a raise anywhere aborts the whole call), and the final
`pd.concat(results)` raises `ValueError` when no strategy is registered
(`results == []`). -/
noncomputable def run_backtest (strategies : List OptionsStrategy)
    (rows : List Row) (volatility risk_free_rate : ℝ) :
    Option (List BRecord) :=
  match strategies.mapM
      (fun s => rows.mapM (mkRecord volatility risk_free_rate s)) with
  | none => none
  | some blocks => if strategies.isEmpty then none else some blocks.flatten

/-! ## Risk reporting (`src/reporting-module.py`,
`ReportGenerator.calculate_risk_metrics`)

The pandas/numpy reductions are embedded over `EF` lists.  At every use
below the series fed to `mean` / `std` is already NaN-free (the returns
series passes through `dropna`), so pandas' NaN-skipping inside those two
reductions is not modelled. -/

/-- `RiskMetrics` dataclass. -/
structure RiskMetrics where
  var_95 : EF
  var_99 : EF
  sharpe_ratio : EF
  sortino_ratio : EF
  max_drawdown : EF
  win_rate : EF
  profit_factor : EF

/-- `Series.dropna()`. -/
def dropna (l : List EF) : List EF := l.filter (fun x => ! x.isNan)

/-- `Series.pct_change()`: first entry `NaN`, entry `i` is
`x_i / x_(i-1) - 1`. -/
noncomputable def pct_change (l : List EF) : List EF :=
  match l with
  | [] => []
  | _ :: t =>
      EF.nan ::
        List.zipWith (fun prev cur => EF.sub (EF.div cur prev) (EF.fin 1)) l t

/-- `Series.sum()` (left fold from `0`, like the numpy reduction). -/
def sumE (l : List EF) : EF := l.foldl EF.add (EF.fin 0)

/-- `Series.mean() = sum/n`; for the empty series this is `0/0 = NaN`,
matching pandas. -/
noncomputable def meanE (l : List EF) : EF := EF.div (sumE l) (EF.fin l.length)

/-- `Series.std()` (ddof = 1): `sqrt(Σ(x - mean)² / (n - 1))`; for `n ≤ 1`
the quotient is `0/0 = NaN`, matching pandas. -/
noncomputable def stdE (l : List EF) : EF :=
  EF.sqrt (EF.div (sumE (l.map (fun x => EF.sq (EF.sub x (meanE l)))))
    (EF.fin ((l.length - 1 : ℕ))))

noncomputable def insertSorted (x : EF) : List EF → List EF
  | [] => [x]
  | y :: ys => if EF.leB x y then x :: y :: ys else y :: insertSorted x ys

/-- Ascending sort in the order `np.sort` uses (`NaN` last). -/
noncomputable def sortE (l : List EF) : List EF := l.foldr insertSorted []

/-- `np.percentile(a, q)` with the default linear interpolation: index
`h = (n-1)·q/100` into the sorted data, interpolating between `⌊h⌋` and the
next entry.  Callers guard `n ≥ 1` (numpy raises on an empty array). -/
noncomputable def percentile (q : ℚ) (l : List EF) : EF :=
  let sorted := sortE l
  let n := l.length
  let h : ℚ := ((n : ℚ) - 1) * q / 100
  let i : ℕ := (Int.floor h).toNat
  let lo := sorted.getD i EF.nan
  let hi := sorted.getD (min (i + 1) (n - 1)) EF.nan
  EF.add lo (EF.mul (EF.fin ((h - (i : ℚ) : ℚ) : ℝ)) (EF.sub hi lo))

/-- `Series.cumprod()` unfolded from a running accumulator. -/
noncomputable def cumprodFrom (acc : EF) : List EF → List EF
  | [] => []
  | x :: xs => EF.mul acc x :: cumprodFrom (EF.mul acc x) xs

/-- Binary max with pandas' NaN skipping. -/
noncomputable def maxE (a b : EF) : EF :=
  if a.isNan then b else if b.isNan then a else if EF.leB a b then b else a

/-- `Series.expanding().max()` unfolded from a running accumulator. -/
noncomputable def runmaxFrom (acc : EF) : List EF → List EF
  | [] => []
  | x :: xs => maxE acc x :: runmaxFrom (maxE acc x) xs

/-- `Series.min()` (skipna): minimum of the non-NaN entries, `NaN` if none. -/
noncomputable def minE (l : List EF) : EF :=
  match dropna l with
  | [] => EF.nan
  | x :: xs => xs.foldl (fun a b => if EF.leB b a then b else a) x

/-- `ReportGenerator.calculate_risk_metrics` (`src/reporting-module.py`
lines 35–76) applied to the `pnl` column of the results table;
`self.risk_free_rate = 0.03`.  `np.percentile` raises on an empty array
(the only raising step, reached exactly when the post-`dropna` return
series is empty), modelled by `none`; every later line is plain
special-value arithmetic with no error path. -/
noncomputable def calculate_risk_metrics (pnl : List EF) : Option RiskMetrics :=
  let returns := dropna (pct_change pnl)
  if returns.isEmpty then none
  else
    let var_95 := percentile 5 returns
    let var_99 := percentile 1 returns
    let risk_free_rate : ℝ := 3 / 100
    let excess_returns :=
      returns.map (fun x => EF.sub x (EF.fin (risk_free_rate / 252)))
    let sharpe :=
      EF.div (EF.mul (EF.fin (Real.sqrt 252)) (meanE excess_returns))
        (stdE returns)
    let downside_returns := returns.filter (fun x => EF.ltB x (EF.fin 0))
    let sortino :=
      EF.div (EF.mul (EF.fin (Real.sqrt 252)) (meanE excess_returns))
        (stdE downside_returns)
    let cumulative :=
      cumprodFrom (EF.fin 1) (returns.map (fun x => EF.add (EF.fin 1) x))
    let running_max := runmaxFrom EF.nan cumulative
    let drawdowns :=
      List.zipWith (fun c m => EF.sub (EF.div c m) (EF.fin 1)) cumulative
        running_max
    let max_drawdown := minE drawdowns
    let wins := (returns.filter (fun x => EF.ltB (EF.fin 0) x)).length
    let total_trades := returns.length
    let win_rate :=
      if 0 < total_trades then EF.fin ((wins : ℝ) / (total_trades : ℝ))
      else EF.fin 0
    let profit_factor :=
      if 0 < (returns.filter (fun x => EF.ltB x (EF.fin 0))).length then
        EF.div (EF.absE (sumE (returns.filter (fun x => EF.ltB (EF.fin 0) x))))
          (EF.absE (sumE (returns.filter (fun x => EF.ltB x (EF.fin 0)))))
      else EF.pinf
    some
      { var_95 := var_95, var_99 := var_99, sharpe_ratio := sharpe,
        sortino_ratio := sortino, max_drawdown := max_drawdown,
        win_rate := win_rate, profit_factor := profit_factor }

/-- Projection of an optional report's Sharpe ratio (`NaN` if absent),
used to state properties without binders. -/
def sharpeOf (o : Option RiskMetrics) : EF := o.elim EF.nan RiskMetrics.sharpe_ratio

/-- Projection of an optional report's Sortino ratio (`NaN` if absent). -/
def sortinoOf (o : Option RiskMetrics) : EF := o.elim EF.nan RiskMetrics.sortino_ratio

/-- Projection of an optional report's profit factor (`NaN` if absent). -/
def profitFactorOf (o : Option RiskMetrics) : EF := o.elim EF.nan RiskMetrics.profit_factor

/-! ## Computation rules for `EF` -/

namespace EF

@[simp] theorem add_fin_fin (a b : ℝ) : add (fin a) (fin b) = fin (a + b) := rfl

@[simp] theorem add_nan_left (x : EF) : add nan x = nan := rfl

@[simp] theorem add_nan_right (x : EF) : add x nan = nan := by cases x <;> rfl

@[simp] theorem neg_fin (a : ℝ) : neg (fin a) = fin (-a) := rfl

@[simp] theorem neg_nan : neg nan = nan := rfl

@[simp] theorem neg_pinf : neg pinf = ninf := rfl

@[simp] theorem neg_ninf : neg ninf = pinf := rfl

@[simp] theorem sub_fin_fin (a b : ℝ) : sub (fin a) (fin b) = fin (a - b) := by
  simp [sub, sub_eq_add_neg]

@[simp] theorem sub_nan_left (x : EF) : sub nan x = nan := rfl

@[simp] theorem sub_nan_right (x : EF) : sub x nan = nan := by cases x <;> rfl

@[simp] theorem mul_fin_fin (a b : ℝ) : mul (fin a) (fin b) = fin (a * b) := rfl

@[simp] theorem mul_nan_left (x : EF) : mul nan x = nan := rfl

@[simp] theorem mul_nan_right (x : EF) : mul x nan = nan := by cases x <;> rfl

@[simp] theorem mul_ninf_ninf : mul ninf ninf = pinf := rfl

@[simp] theorem mul_pinf_pinf : mul pinf pinf = pinf := rfl

theorem mul_fin_zero_pinf : mul (fin 0) pinf = nan := by simp [mul]

theorem mul_fin_zero_ninf : mul (fin 0) ninf = nan := by simp [mul]

@[simp] theorem div_nan_left (x : EF) : div nan x = nan := rfl

@[simp] theorem div_nan_right (x : EF) : div x nan = nan := by cases x <;> rfl

theorem div_fin_fin (a b : ℝ) (h : b ≠ 0) : div (fin a) (fin b) = fin (a / b) := by
  simp [div, h]

theorem div_fin_zero_pos (a : ℝ) (h : 0 < a) : div (fin a) (fin 0) = pinf := by
  simp [div, h]

theorem div_fin_zero_neg (a : ℝ) (h : a < 0) : div (fin a) (fin 0) = ninf := by
  simp [div, h, h.not_lt]

@[simp] theorem div_fin_zero_zero : div (fin 0) (fin 0) = nan := by simp [div]

@[simp] theorem div_ninf_fin_nonneg (b : ℝ) (h : 0 ≤ b) : div ninf (fin b) = ninf := by
  simp [div, h]

@[simp] theorem div_pinf_fin_nonneg (b : ℝ) (h : 0 ≤ b) : div pinf (fin b) = pinf := by
  simp [div, h]

@[simp] theorem sq_fin (a : ℝ) : sq (fin a) = fin (a * a) := rfl

@[simp] theorem sq_nan : sq nan = nan := rfl

@[simp] theorem sq_pinf : sq pinf = pinf := rfl

@[simp] theorem sq_ninf : sq ninf = pinf := rfl

theorem sqrt_fin_nonneg (a : ℝ) (h : 0 ≤ a) : sqrt (fin a) = fin (Real.sqrt a) := by
  simp [sqrt, h]

theorem sqrt_fin_neg (a : ℝ) (h : a < 0) : sqrt (fin a) = nan := by
  simp [sqrt, not_le.mpr h]

@[simp] theorem sqrt_nan : sqrt nan = nan := rfl

@[simp] theorem isNan_nan : isNan nan = true := rfl

@[simp] theorem isNan_fin (a : ℝ) : isNan (fin a) = false := rfl

theorem isNan_true_iff (x : EF) : isNan x = true ↔ x = nan := by
  cases x <;> simp [isNan]

@[simp] theorem nan_ne_fin (a : ℝ) : (nan : EF) ≠ fin a := by intro h; cases h

@[simp] theorem fin_ne_nan (a : ℝ) : (fin a : EF) ≠ nan := by intro h; cases h

theorem fin_inj {a b : ℝ} : (fin a = fin b) ↔ a = b := by
  constructor
  · intro h; cases h; rfl
  · intro h; rw [h]

end EF

/-! ## Association-list lemmas for the positions dict -/

theorem lookupPos_erasePos (ps : List (String × Position)) (s : String) :
    lookupPos (erasePos ps s) s = none := by
  have h : (erasePos ps s).find? (fun q => q.1 == s) = none := by
    rw [List.find?_eq_none]
    intro x hx
    rcases List.mem_filter.mp hx with ⟨-, hne⟩
    simpa using hne
  simp [lookupPos, h]

theorem lookupPos_cons (q : String × Position) (t : List (String × Position))
    (s : String) :
    lookupPos (q :: t) s = if q.1 = s then some q.2 else lookupPos t s := by
  by_cases h : q.1 = s <;> simp [lookupPos, List.find?_cons, h]

theorem updatePos_cons (q : String × Position) (t : List (String × Position))
    (s : String) (p : Position) :
    updatePos (q :: t) s p =
      (if q.1 = s then (q.1, p) else q) :: updatePos t s p := by
  by_cases h : q.1 = s <;> simp [updatePos, h]

theorem erasePos_cons (q : String × Position) (t : List (String × Position))
    (s : String) :
    erasePos (q :: t) s = if q.1 = s then erasePos t s else q :: erasePos t s := by
  by_cases h : q.1 = s <;> simp [erasePos, List.filter_cons, h]

theorem lookupPos_updatePos (ps : List (String × Position)) (s : String)
    (p : Position) :
    lookupPos (updatePos ps s p) s = (lookupPos ps s).map (fun _ => p) := by
  induction ps with
  | nil => rfl
  | cons q t ih =>
      rw [updatePos_cons, lookupPos_cons, lookupPos_cons]
      by_cases h : q.1 = s
      · simp [h]
      · simp [h, ih]

theorem realized_sum_erase (ps : List (String × Position)) (s : String)
    (pos : Position) (hnd : (ps.map Prod.fst).Nodup)
    (h : lookupPos ps s = some pos) :
    ((erasePos ps s).map (fun q => q.2.realized_pnl)).sum =
      (ps.map (fun q => q.2.realized_pnl)).sum - pos.realized_pnl := by
  induction ps with
  | nil => simp [lookupPos] at h
  | cons q t ih =>
      rw [List.map_cons, List.nodup_cons] at hnd
      obtain ⟨hq1, hnd1⟩ := hnd
      rw [lookupPos_cons] at h
      rw [erasePos_cons]
      by_cases hq : q.1 = s
      · have hpos : q.2 = pos := by simpa [hq] using h
        have ht : erasePos t s = t := by
          refine List.filter_eq_self.mpr ?_
          intro x hx
          have hxs : x.1 ≠ s := by
            intro hxs
            refine hq1 (List.mem_map.mpr ⟨x, hx, ?_⟩)
            rw [hxs, hq]
          simpa using hxs
        simp only [if_pos hq, ht, List.map_cons, List.sum_cons, hpos]
        ring
      · have ht : lookupPos t s = some pos := by simpa [hq] using h
        simp only [if_neg hq, List.map_cons, List.sum_cons, ih hnd1 ht]
        ring

/-! ## Concrete portfolios used in the scenario proofs -/

/-- A holding of 10 units of `"X"` at average cost 100. -/
def xPos : Position :=
  { contract_id := 1, symbol := "X", quantity := 10, average_cost := 100,
    market_value := 1000, unrealized_pnl := 0, realized_pnl := 0 }

/-- A holding of 3 units of `"Y"` with 7 of realized P&L accumulated. -/
def yPos : Position :=
  { contract_id := 2, symbol := "Y", quantity := 3, average_cost := 50,
    market_value := 150, unrealized_pnl := 0, realized_pnl := 7 }

/-- A connected engine holding only `xPos`. -/
def xState : PaperState :=
  { connected := true, nextOrderId := 5, orders := [],
    positions := [("X", xPos)], cash_balance := 0 }

/-- A connected engine holding `xPos` and `yPos`. -/
def xyState : PaperState :=
  { connected := true, nextOrderId := 5, orders := [],
    positions := [("X", xPos), ("Y", yPos)], cash_balance := 0 }

/-- A fresh engine with starting cash `c` and no positions. -/
def emptyState (c : ℚ) : PaperState :=
  { connected := true, nextOrderId := 1, orders := [], positions := [],
    cash_balance := c }

/-- A *disconnected* engine with no positions. -/
def discState : PaperState :=
  { connected := false, nextOrderId := 1, orders := [], positions := [],
    cash_balance := 0 }

/-! ## Claims about the paper-trading engine -/

/-- Claim C1 (code bug): for a same-direction add the claimed weighted
average `(q1·p1 + q2·p2)/(q1+q2)` is *not* what the code computes, because
`position.quantity` is overwritten with the new total before the
average-cost numerator reads it.  Holding 10 @ 100 and buying 10 filled at
110, the code stores average cost `(100·20 + 110·10)/20 = 155`, while the
claimed weighted average is `(10·100 + 10·110)/(10+10) = 105`. -/
theorem avgCost_uses_overwritten_quantity :
    (lookupPos (place_order xState "X" 10 "MKT" 110).state.positions "X").map
        Position.average_cost = some 155 ∧
      ((10 : ℚ) * 100 + 10 * 110) / ((10 : ℚ) + 10) = 105 ∧ (155 : ℚ) ≠ 105 := by
  refine ⟨?_, by norm_num, by norm_num⟩
  simp [place_order, lookupPos, updatePos, xState, xPos]
  norm_num

/-- Claim C2, counterexample: holding 10 @ 100, a sell of 15 filled at 102
flips the position to −5, but the code books *no* realized P&L (the claim
asserts `(102−100)·10 = 20`) and stores average cost
`(100·(−5) + 102·(−15))/(−5) = 406`, not the fill price 102. -/
theorem signFlip_cx :
    (place_order xState "X" (-15) "MKT" 102).realizedDelta = 0 ∧
      (lookupPos (place_order xState "X" (-15) "MKT" 102).state.positions
            "X").map Position.average_cost = some 406 ∧
      (lookupPos (place_order xState "X" (-15) "MKT" 102).state.positions
            "X").map Position.quantity = some (-5) ∧
      ¬((place_order xState "X" (-15) "MKT" 102).realizedDelta =
            ((102 : ℚ) - 100) * 10 ∧
          (lookupPos (place_order xState "X" (-15) "MKT" 102).state.positions
                "X").map Position.average_cost = some 102) := by
  have h1 : (place_order xState "X" (-15) "MKT" 102).realizedDelta = 0 := by
    simp [place_order, lookupPos, xState, xPos]
  have h2 : (lookupPos (place_order xState "X" (-15) "MKT" 102).state.positions
      "X").map Position.average_cost = some 406 := by
    simp [place_order, lookupPos, updatePos, xState, xPos]
    norm_num
  have h3 : (lookupPos (place_order xState "X" (-15) "MKT" 102).state.positions
      "X").map Position.quantity = some (-5) := by
    simp [place_order, lookupPos, updatePos, xState, xPos]
  refine ⟨h1, h2, h3, ?_⟩
  rintro ⟨hc, -⟩
  rw [h1] at hc
  norm_num at hc

/-- Claim C2 as amended: when an order of sign opposite to the open quantity
overshoots through zero (`q1 = q0 + order_quantity ≠ 0`,
`sign q1 ≠ sign q0`), the code books no realized P&L and keeps the blended
average-cost formula `(average_cost·q1 + fill_price·order_quantity)/q1` (it
has no direction-flip branch; the `q1 ≠ 0` else-branch runs unchanged), so
the re-opened position does **not** carry the fill price as average cost. -/
theorem signFlip_books_nothing (st : PaperState) (symbol ot : String)
    (quantity : ℤ) (p : ℚ) (position : Position)
    (h : lookupPos st.positions symbol = some position)
    (hopp : position.quantity * quantity < 0)
    (hq : position.quantity + quantity ≠ 0)
    (hflip : (position.quantity + quantity).sign ≠ position.quantity.sign) :
    (place_order st symbol quantity ot p).realizedDelta = 0 ∧
      lookupPos (place_order st symbol quantity ot p).state.positions symbol =
        some
          { position with
            quantity := position.quantity + quantity,
            average_cost :=
              (position.average_cost * ((position.quantity + quantity : ℤ) : ℚ) +
                  p * (quantity : ℚ)) / ((position.quantity + quantity : ℤ) : ℚ),
            market_value := ((position.quantity + quantity : ℤ) : ℚ) * p } := by
  constructor
  · simp [place_order, h, hq]
  · simp [place_order, h, hq, lookupPos_updatePos]

/-- Witness for the amended Claim C2 at the concrete flip 10 @ 100 plus
sell 15 filled at 102. -/
theorem signFlip_books_nothing_witness :
    (place_order xState "X" (-15) "MKT" 102).realizedDelta = 0 ∧
      lookupPos (place_order xState "X" (-15) "MKT" 102).state.positions "X" =
        some
          { xPos with
            quantity := xPos.quantity + (-15),
            average_cost :=
              (xPos.average_cost * ((xPos.quantity + (-15) : ℤ) : ℚ) +
                  102 * ((-15 : ℤ) : ℚ)) / ((xPos.quantity + (-15) : ℤ) : ℚ),
            market_value := ((xPos.quantity + (-15) : ℤ) : ℚ) * 102 } :=
  signFlip_books_nothing xState "X" "MKT" (-15) 102 xPos (by rfl)
    (by decide) (by decide) (by decide)

/-- Claim C3: from an empty portfolio with any starting cash `c`, buying 10
units of `"X"` filled at 100 and then selling 10 filled at 102 books
realized P&L of exactly 20 on the close, removes the position entirely, and
moves cash by `−1000` then `+1020`, i.e. to `c + 20` net. -/
theorem buy_then_sell_roundtrip (c : ℚ) :
    (place_order (place_order (emptyState c) "X" 10 "MKT" 100).state "X"
          (-10) "MKT" 102).realizedDelta = 20 ∧
      lookupPos (place_order (place_order (emptyState c) "X" 10 "MKT" 100).state
          "X" (-10) "MKT" 102).state.positions "X" = none ∧
      (place_order (emptyState c) "X" 10 "MKT" 100).state.cash_balance =
        c - 1000 ∧
      (place_order (place_order (emptyState c) "X" 10 "MKT" 100).state "X"
          (-10) "MKT" 102).state.cash_balance = c + 20 := by
  refine ⟨?_, ?_, ?_, ?_⟩ <;>
    simp [place_order, lookupPos, setPos, erasePos, emptyState] <;> ring

/-- Claim C5, counterexample: on a *disconnected* engine, an order of kind
`"LMT"` (for which no limit price even exists in the signature) is not
rejected — it is filled at the next tick price with status `"FILLED"`. -/
theorem disconnected_limit_cx :
    discState.connected = false ∧
      (place_order discState "Y" 5 "LMT" 101).order.order_type = "LMT" ∧
      (place_order discState "Y" 5 "LMT" 101).order.status = "FILLED" ∧
      (place_order discState "Y" 5 "LMT" 101).order.filled_price = 101 := by
  refine ⟨rfl, ?_, ?_, ?_⟩ <;> simp [place_order, lookupPos, discState]

/-- Claim C5 as amended: `PaperTrading.place_order` has no rejection path at
all — for every engine state (connected or not), every symbol, quantity and
order-type string, the stored order has status `"FILLED"` and is filled at
the consumed tick's price. -/
theorem place_order_never_rejects (st : PaperState) (symbol ot : String)
    (q : ℤ) (p : ℚ) :
    (place_order st symbol q ot p).order.status = "FILLED" ∧
      (place_order st symbol q ot p).order.filled_price = p := by
  unfold place_order
  cases h : lookupPos st.positions symbol with
  | none => simp
  | some position =>
      by_cases hq : position.quantity + q = 0 <;> simp [hq]

/-- Claim C10: an order that exactly closes a position books
`(fill − average_cost)·|q0|` into the `Position` object, but the object is
then deleted, so the symbol no longer resolves and the portfolio summary's
`realized_pnl` — a sum over *open* positions only — drops the closed
position's accumulated realized P&L entirely. -/
theorem close_discards_realized (st : PaperState) (symbol ot : String)
    (p : ℚ) (position : Position)
    (hnd : (st.positions.map Prod.fst).Nodup)
    (h : lookupPos st.positions symbol = some position)
    (hq : position.quantity ≠ 0) :
    (place_order st symbol (-position.quantity) ot p).realizedDelta =
        (p - position.average_cost) * ((|position.quantity| : ℤ) : ℚ) ∧
      lookupPos (place_order st symbol (-position.quantity) ot
          p).state.positions symbol = none ∧
      (get_portfolio_summary (place_order st symbol (-position.quantity) ot
            p).state).realized_pnl =
        (get_portfolio_summary st).realized_pnl - position.realized_pnl := by
  refine ⟨?_, ?_, ?_⟩
  · simp [place_order, h]
  · simp [place_order, h, lookupPos_erasePos]
  · simp [place_order, h, get_portfolio_summary]
    exact realized_sum_erase st.positions symbol position hnd h

/-- Witness for Claim C10: closing the `"X"` position of `xyState` at 102
books 20 on the close, the symbol stops resolving, and the summary's
realized P&L keeps only the `"Y"` position's 7. -/
theorem close_discards_realized_witness :
    (place_order xyState "X" (-xPos.quantity) "MKT" 102).realizedDelta =
        (102 - xPos.average_cost) * ((|xPos.quantity| : ℤ) : ℚ) ∧
      lookupPos (place_order xyState "X" (-xPos.quantity) "MKT"
          102).state.positions "X" = none ∧
      (get_portfolio_summary (place_order xyState "X" (-xPos.quantity) "MKT"
            102).state).realized_pnl =
        (get_portfolio_summary xyState).realized_pnl - xPos.realized_pnl :=
  close_discards_realized xyState "X" "MKT" 102 xPos
    (by simp [xyState]) (by rfl) (by norm_num [xPos])

/-! ## Claims about the Greeks computation -/

/-- A call leg that expired 30 days ago. -/
noncomputable def expiredLeg : OptionContract :=
  { symbol := "SPY", strike := 100, expiryDays := -30, option_type := "call",
    position := 1, price := 5 }

/-- A call leg with 80 days to expiry. -/
noncomputable def freshLeg : OptionContract :=
  { symbol := "SPY", strike := 110, expiryDays := 80, option_type := "call",
    position := 2, price := 3 }

/-- A one-leg strategy holding only the expired leg. -/
noncomputable def expiredStrat : OptionsStrategy :=
  { name := "Expired", description := "one expired call", positions := [expiredLeg] }

/-- A strategy holding a live leg followed by the expired leg. -/
noncomputable def mixedStrat : OptionsStrategy :=
  { name := "Mixed", description := "live call plus expired call",
    positions := [freshLeg, expiredLeg] }

/-- A one-leg strategy holding only the live call. -/
noncomputable def oneCallStrat : OptionsStrategy :=
  { name := "OneCall", description := "one live call", positions := [freshLeg] }

/-- A strategy with no legs — the only case in which `calculate_greeks`
returns instead of raising. -/
def emptyStrat : OptionsStrategy :=
  { name := "Empty", description := "no legs", positions := [] }

/-- Claim C4, counterexample: on a leg-free strategy with zero volatility
the Greeks computation signals no error at all — it returns the all-zero
totals dict (whose entries are finite, not NaN or infinity), contradicting
the claim's "signals an error" for that input. -/
theorem zero_vol_cx :
    calculate_greeks emptyStrat 100 0 (3 / 100) =
      some { delta := EF.fin 0, gamma := EF.fin 0, theta := EF.fin 0,
             vega := EF.fin 0 } ∧
      (EF.fin 0).isNan = false :=
  ⟨rfl, rfl⟩

/-- Claim C4 as amended: for every strategy with at least one leg the Greeks
computation does signal an error under zero volatility — indeed on every
input, because each loop iteration evaluates `_norm_cdf`, i.e. the
nonexistent `np.erf`, and raises `AttributeError` before any NaN-laden
result could be built.  Only a leg-free strategy returns (the all-zero
dict). -/
theorem zero_vol_signals_error (s : OptionsStrategy) (cp r : ℝ)
    (leg : OptionContract) (rest : List OptionContract)
    (hpos : s.positions = leg :: rest) :
    calculate_greeks s cp 0 r = none := by
  unfold calculate_greeks
  rw [hpos]

/-- Witness for the amended Claim C4 on the one-call strategy. -/
theorem zero_vol_signals_error_witness :
    calculate_greeks oneCallStrat 100 0 (3 / 100) = none :=
  zero_vol_signals_error oneCallStrat 100 (3 / 100) freshLeg [] rfl

/-- Claim C7, counterexample: a strategy holding one leg whose expiry lies
in the past produces no net Greeks at all — `calculate_greeks` raises
(modelled `none`) — so the expired leg does not "contribute exactly zero"
to a returned total (which the claim would make `some` all-zero dict). -/
theorem expired_leg_cx :
    calculate_greeks expiredStrat 100 (1 / 5) (3 / 100) = none ∧
      calculate_greeks expiredStrat 100 (1 / 5) (3 / 100) ≠
        some { delta := EF.fin 0, gamma := EF.fin 0, theta := EF.fin 0,
               vega := EF.fin 0 } := by
  refine ⟨rfl, ?_⟩
  simp [calculate_greeks, expiredStrat]

/-- Claim C7 as amended: there is no `tte ≤ 0` guard, and an expired leg
never contributes zero to returned net Greeks for a deeper reason: any
strategy containing a leg at all raises `AttributeError` (`np.erf` inside
`_norm_cdf`) before the totals can be summed or returned. -/
theorem expired_leg_never_contributes (s : OptionsStrategy) (cp vol r : ℝ)
    (pre post : List OptionContract) (leg : OptionContract)
    (hsplit : s.positions = pre ++ leg :: post)
    (hexp : leg.expiryDays ≤ 0) :
    calculate_greeks s cp vol r = none := by
  unfold calculate_greeks
  rw [hsplit]
  cases pre <;> rfl

/-- Witness for the amended Claim C7 on the live-plus-expired strategy. -/
theorem expired_leg_never_contributes_witness :
    calculate_greeks mixedStrat 100 (1 / 5) (3 / 100) = none :=
  expired_leg_never_contributes mixedStrat 100 (1 / 5) (3 / 100) [freshLeg]
    [] expiredLeg rfl (by decide)

/-! ## Label alignment facts for the P&L series -/

@[simp] theorem insertLabel_nil (x : ℝ) : insertLabel x [] = [x] := rfl

theorem insertLabel_cons (x y : ℝ) (ys : List ℝ) :
    insertLabel x (y :: ys) =
      if x ≤ y then x :: y :: ys else y :: insertLabel x ys := rfl

@[simp] theorem lookupLabel_nil (L : ℝ) : lookupLabel [] L = none := rfl

theorem lookupLabel_cons (e : ℝ × EF) (s : List (ℝ × EF)) (L : ℝ) :
    lookupLabel (e :: s) L =
      if e.1 = L then some e.2 else lookupLabel s L := by
  by_cases h : e.1 = L <;> simp [lookupLabel, List.find?_cons, h]

theorem lookupLabel_mem {s : List (ℝ × EF)} {L : ℝ} {x : EF}
    (h : lookupLabel s L = some x) : ∃ e ∈ s, e.1 = L ∧ e.2 = x := by
  unfold lookupLabel at h
  cases hf : s.find? (fun e => decide (e.1 = L)) with
  | none => rw [hf] at h; cases h
  | some e0 =>
      rw [hf] at h
      refine ⟨e0, List.mem_of_find?_eq_some hf, ?_, ?_⟩
      · have hp := List.find?_some hf
        simpa using hp
      · simpa using h

/-- Every value of an aligned sum is `NaN` unless its label resolves on both
sides. -/
theorem seriesAdd_value_cases (a b : List (ℝ × EF)) (e : ℝ × EF)
    (he : e ∈ seriesAdd a b) :
    e.2 = EF.nan ∨
      ∃ x y, lookupLabel a e.1 = some x ∧ lookupLabel b e.1 = some y ∧
        e.2 = EF.add x y := by
  unfold seriesAdd at he
  obtain ⟨L, hL, rfl⟩ := List.mem_map.mp he
  cases h1 : lookupLabel a L with
  | none => left; rfl
  | some x =>
      cases h2 : lookupLabel b L with
      | none => left; rfl
      | some y => right; exact ⟨x, y, rfl, rfl, rfl⟩

/-- Aligned addition never repairs an all-NaN left side. -/
theorem seriesAdd_all_nan_left {a : List (ℝ × EF)} (b : List (ℝ × EF))
    (ha : ∀ e ∈ a, e.2 = EF.nan) :
    ∀ e ∈ seriesAdd a b, e.2 = EF.nan := by
  intro e he
  rcases seriesAdd_value_cases a b e he with h | ⟨x, y, hx, hy, hv⟩
  · exact h
  · obtain ⟨e0, he0, -, hx0⟩ := lookupLabel_mem hx
    rw [hv, ← hx0, ha e0 he0]
    exact EF.add_nan_left y

/-- Aligned addition of series with disjoint label sets is all-NaN. -/
theorem seriesAdd_disjoint_all_nan (a b : List (ℝ × EF))
    (hdisj : ∀ e ∈ a, ∀ f ∈ b, e.1 ≠ f.1) :
    ∀ e ∈ seriesAdd a b, e.2 = EF.nan := by
  intro e he
  rcases seriesAdd_value_cases a b e he with h | ⟨x, y, hx, hy, -⟩
  · exact h
  · obtain ⟨ea, hea, heaL, -⟩ := lookupLabel_mem hx
    obtain ⟨eb, heb, hebL, -⟩ := lookupLabel_mem hy
    exact absurd (heaL.trans hebL.symm) (hdisj ea hea eb heb)

theorem foldl_seriesAdd_all_nan (f : OptionContract → List (ℝ × EF))
    (legs : List OptionContract) (acc : List (ℝ × EF))
    (hacc : ∀ e ∈ acc, e.2 = EF.nan) :
    ∀ e ∈ legs.foldl (fun pnl pos => seriesAdd pnl (f pos)) acc,
      e.2 = EF.nan := by
  induction legs generalizing acc with
  | nil => exact hacc
  | cons leg rest ih =>
      rw [List.foldl_cons]
      exact ih _ (seriesAdd_all_nan_left _ hacc)

/-- For any strategy with at least one leg — offsetting or not — the P&L
series over candidate prices that avoid the positional labels `0, …, n-1`
is entirely `NaN`: the first leg's aligned addition pits the value-labeled
zero series against the positionally-labeled term series (disjoint label
sets), and no later addition repairs a NaN. -/
theorem calculate_pnl_all_nan (s : OptionsStrategy) (prices : List ℝ)
    (hlegs : s.positions ≠ [])
    (hdisj : ∀ p ∈ prices, ∀ i : ℕ, i < prices.length → p ≠ (i : ℝ)) :
    (calculate_pnl s prices).all (fun e => e.2.isNan) = true := by
  rw [List.all_eq_true]
  intro e he
  rw [EF.isNan_true_iff]
  obtain ⟨leg, rest, hcons⟩ := List.exists_cons_of_ne_nil hlegs
  unfold calculate_pnl at he
  rw [hcons, List.foldl_cons] at he
  refine foldl_seriesAdd_all_nan _ rest _ ?_ e he
  apply seriesAdd_disjoint_all_nan
  intro ea hea fb hfb
  obtain ⟨p, hp, rfl⟩ := List.mem_map.mp hea
  obtain ⟨i, hi, rfl⟩ := List.mem_map.mp hfb
  exact hdisj p hp i (List.mem_range.mp hi)

/-- The long side of an exactly offsetting live call pair (strike 100,
80 days, entry 3). -/
noncomputable def offsetLegA : OptionContract :=
  { symbol := "Q", strike := 100, expiryDays := 80, option_type := "call",
    position := 1, price := 3 }

/-- The short side of the pair: identical to `offsetLegA` except for the
opposite contract count. -/
noncomputable def offsetLegB : OptionContract :=
  { symbol := "Q", strike := 100, expiryDays := 80, option_type := "call",
    position := -1, price := 3 }

/-- The exactly offsetting two-leg strategy. -/
noncomputable def offsetCxStrat : OptionsStrategy :=
  { name := "OffsetCx", description := "exactly offsetting call pair",
    positions := [offsetLegA, offsetLegB] }

theorem legTermSeries_singleton (pos : OptionContract) (p : ℝ) :
    legTermSeries pos [p] =
      [((0 : ℝ),
        EF.fin
          (((if pos.option_type = "call" then max (p - pos.strike) 0
             else max (pos.strike - p) 0) - pos.price) *
            (pos.position : ℝ)))] := by
  simp [legTermSeries, show List.range 1 = [0] from rfl]

/-- Aligning the value-labeled zero series of the single price 50 with a
positionally-labeled one-entry term series: labels `{50}` and `{0}` are
disjoint, so both union entries are `NaN`. -/
theorem seriesAdd_price50_term (x v : EF) :
    seriesAdd [((50 : ℝ), x)] [((0 : ℝ), v)] =
      [(0, EF.nan), (50, EF.nan)] := by
  unfold seriesAdd
  rw [show List.map Prod.fst [((50 : ℝ), x)] ++
      List.map Prod.fst [((0 : ℝ), v)] = [(50 : ℝ), 0] by simp]
  rw [List.dedup_cons_of_not_mem (by norm_num),
    List.dedup_cons_of_not_mem (by simp), List.dedup_nil]
  rw [show sortLabels [(50 : ℝ), 0] = [(0 : ℝ), 50] by
    norm_num [sortLabels, insertLabel_cons]]
  norm_num [lookupLabel_cons]

/-- A second leg's aligned addition cannot repair the all-NaN series. -/
theorem seriesAdd_nan_pair_term (v : EF) :
    seriesAdd [((0 : ℝ), EF.nan), ((50 : ℝ), EF.nan)] [((0 : ℝ), v)] =
      [(0, EF.nan), (50, EF.nan)] := by
  unfold seriesAdd
  rw [show List.map Prod.fst [((0 : ℝ), EF.nan), ((50 : ℝ), EF.nan)] ++
      List.map Prod.fst [((0 : ℝ), v)] = [(0 : ℝ), 50, 0] by simp]
  rw [List.dedup_cons_of_mem (by norm_num),
    List.dedup_cons_of_not_mem (by norm_num),
    List.dedup_cons_of_not_mem (by simp), List.dedup_nil]
  rw [show sortLabels [(50 : ℝ), 0] = [(0 : ℝ), 50] by
    norm_num [sortLabels, insertLabel_cons]]
  norm_num [lookupLabel_cons]

/-- Claim C8, counterexample: the exactly offsetting call pair (same strike,
kind, future expiry, equal entry price, counts +1/−1) at spot 100, σ = 0.2,
r = 0.03 has *no* net Greeks (`calculate_greeks` raises — `np.erf` does not
exist) rather than zero ones, and its P&L "series" at candidate price 50 is
`NaN` at both union labels `0` and `50` (pandas label alignment), not zero. -/
theorem offsetting_cx :
    calculate_greeks offsetCxStrat 100 (1 / 5) (3 / 100) = none ∧
      calculate_greeks offsetCxStrat 100 (1 / 5) (3 / 100) ≠
        some { delta := EF.fin 0, gamma := EF.fin 0, theta := EF.fin 0,
               vega := EF.fin 0 } ∧
      calculate_pnl offsetCxStrat [50] = [(0, EF.nan), (50, EF.nan)] ∧
      EF.nan ≠ EF.fin 0 := by
  refine ⟨rfl, by simp [calculate_greeks, offsetCxStrat], ?_, by simp⟩
  have hstep : calculate_pnl offsetCxStrat [50] =
      seriesAdd (seriesAdd [((50 : ℝ), EF.fin 0)]
        (legTermSeries offsetLegA [50])) (legTermSeries offsetLegB [50]) := by
    simp [calculate_pnl, offsetCxStrat]
  rw [hstep, legTermSeries_singleton, legTermSeries_singleton,
    seriesAdd_price50_term, seriesAdd_nan_pair_term]

/-- Claim C8 as amended: an exactly offsetting pair exhibits *neither*
cancellation.  The net-Greeks call raises (`np.erf` `AttributeError`) and
returns nothing; and the P&L series over any candidate prices that avoid
the positional labels `0, …, n-1` consists entirely of `NaN`, because
pandas aligns the value-labeled zero series with the positionally-labeled
per-leg terms by label. -/
theorem offsetting_legs_no_cancellation (nm ds sym1 sym2 kind : String)
    (K entry : ℝ) (days n : ℤ) (cp vol r : ℝ) (prices : List ℝ)
    (hdisj : ∀ p ∈ prices, ∀ i : ℕ, i < prices.length → p ≠ (i : ℝ)) :
    calculate_greeks
        { name := nm, description := ds,
          positions :=
            [{ symbol := sym1, strike := K, expiryDays := days,
               option_type := kind, position := n, price := entry },
             { symbol := sym2, strike := K, expiryDays := days,
               option_type := kind, position := -n, price := entry }] }
        cp vol r = none ∧
      (calculate_pnl
          { name := nm, description := ds,
            positions :=
              [{ symbol := sym1, strike := K, expiryDays := days,
                 option_type := kind, position := n, price := entry },
               { symbol := sym2, strike := K, expiryDays := days,
                 option_type := kind, position := -n, price := entry }] }
          prices).all (fun e => e.2.isNan) = true :=
  ⟨rfl, calculate_pnl_all_nan _ prices (by simp) hdisj⟩

/-- Witness for the amended Claim C8: the +2/−2 call pair at strike 100
swept over candidate prices 90 and 120 (which avoid the positional labels
0 and 1). -/
theorem offsetting_legs_no_cancellation_witness :
    calculate_greeks
        { name := "W", description := "w",
          positions :=
            [{ symbol := "A", strike := 100, expiryDays := 80,
               option_type := "call", position := 2, price := 3 },
             { symbol := "B", strike := 100, expiryDays := 80,
               option_type := "call", position := -2, price := 3 }] }
        100 (1 / 5) (3 / 100) = none ∧
      (calculate_pnl
          { name := "W", description := "w",
            positions :=
              [{ symbol := "A", strike := 100, expiryDays := 80,
                 option_type := "call", position := 2, price := 3 },
               { symbol := "B", strike := 100, expiryDays := 80,
                 option_type := "call", position := -2, price := 3 }] }
          [90, 120]).all (fun e => e.2.isNan) = true :=
  offsetting_legs_no_cancellation "W" "w" "A" "B" "call" 100 3 80 2 100
    (1 / 5) (3 / 100) [90, 120]
    (by
      intro p hp i hi
      simp only [List.mem_cons, List.not_mem_nil, or_false,
        List.length_cons, List.length_nil] at hp hi
      interval_cases i <;> rcases hp with rfl | rfl <;> norm_num)

/-! ## Claims about the backtest loop -/

/-- Claim C9 (code bug): `run_backtest` never produces the claimed table on
a realistic input.  With a legged strategy and a nonempty series it raises
`AttributeError` (`np.erf` inside `calculate_greeks`) before a single
record is appended; with no registered strategies `pd.concat([])` raises.
Only degenerate runs return: an empty row series yields the empty table
(one record per strategy per zero rows).  The loop structure is otherwise
exactly the claimed one-record-per-strategy-per-row appending, so the claim
matches the evident intent and the code is the slip. -/
theorem run_backtest_crashes :
    run_backtest [oneCallStrat] [{ date := 0, close := 100 }] (1 / 5)
        (3 / 100) = none ∧
      run_backtest [oneCallStrat] ([] : List Row) (1 / 5) (3 / 100) =
        some [] ∧
      run_backtest ([] : List OptionsStrategy) [{ date := 0, close := 100 }]
        (1 / 5) (3 / 100) = none := by
  refine ⟨?_, ?_, ?_⟩ <;> rfl

/-! ## Claims about the risk report -/

theorem zipWith_self_tail (f : EF → EF → EF) (x : EF) (m : ℕ) :
    List.zipWith f (x :: List.replicate m x) (List.replicate m x) =
      List.replicate m (f x x) := by
  induction m with
  | zero => rfl
  | succ k ih => simp only [List.replicate_succ, List.zipWith_cons_cons, ih]

/-- `pct_change` of a constant nonzero series: leading `NaN`, then all-zero
returns (`p/p - 1 = 0`). -/
theorem pct_change_replicate (p : ℝ) (hp : p ≠ 0) (m : ℕ) :
    pct_change (List.replicate (m + 1) (EF.fin p)) =
      EF.nan :: List.replicate m (EF.fin 0) := by
  rw [List.replicate_succ]
  show EF.nan ::
      List.zipWith (fun prev cur => EF.sub (EF.div cur prev) (EF.fin 1))
        (EF.fin p :: List.replicate m (EF.fin p))
        (List.replicate m (EF.fin p)) =
    EF.nan :: List.replicate m (EF.fin 0)
  rw [zipWith_self_tail]
  congr 1
  rw [EF.div_fin_fin p p hp, div_self hp]
  norm_num

theorem dropna_replicate_fin (m : ℕ) (x : ℝ) :
    dropna (List.replicate m (EF.fin x)) = List.replicate m (EF.fin x) :=
  List.filter_eq_self.mpr (fun a ha => by rw [List.eq_of_mem_replicate ha]; rfl)

theorem dropna_cons_nan (l : List EF) : dropna (EF.nan :: l) = dropna l := by
  simp [dropna]

theorem sumE_replicate (m : ℕ) (a : ℝ) :
    sumE (List.replicate m (EF.fin a)) = EF.fin (m * a) := by
  have key : ∀ (k : ℕ) (s : ℝ),
      (List.replicate k (EF.fin a)).foldl EF.add (EF.fin s) =
        EF.fin (s + k * a) := by
    intro k
    induction k with
    | zero => intro s; simp
    | succ j ih =>
        intro s
        rw [List.replicate_succ, List.foldl_cons, EF.add_fin_fin, ih]
        congr 1
        push_cast
        ring
  unfold sumE
  rw [key m 0]
  congr 1
  ring

theorem meanE_replicate (m : ℕ) (hm : m ≠ 0) (a : ℝ) :
    meanE (List.replicate m (EF.fin a)) = EF.fin a := by
  unfold meanE
  rw [sumE_replicate, List.length_replicate,
    EF.div_fin_fin _ _ (Nat.cast_ne_zero.mpr hm)]
  congr 1
  field_simp

theorem stdE_replicate_zero (m : ℕ) (hm : 2 ≤ m) :
    stdE (List.replicate m (EF.fin 0)) = EF.fin 0 := by
  unfold stdE
  rw [meanE_replicate m (by omega) 0, List.map_replicate]
  have h0 : EF.sq (EF.sub (EF.fin 0) (EF.fin 0)) = EF.fin 0 := by
    simp
  rw [h0, sumE_replicate, List.length_replicate,
    EF.div_fin_fin _ _ (Nat.cast_ne_zero.mpr (show m - 1 ≠ 0 by omega))]
  rw [show ((m : ℝ) * 0 / ((m - 1 : ℕ) : ℝ)) = 0 by ring]
  rw [EF.sqrt_fin_nonneg 0 le_rfl, Real.sqrt_zero]

theorem filter_ltB_zero_replicate (m : ℕ) :
    (List.replicate m (EF.fin 0)).filter (fun x => EF.ltB x (EF.fin 0)) = [] := by
  rw [List.filter_eq_nil_iff]
  intro a ha
  rw [List.eq_of_mem_replicate ha]
  simp [EF.ltB]

theorem stdE_nil : stdE ([] : List EF) = EF.nan := by
  unfold stdE
  simp only [List.map_nil, List.length_nil, Nat.zero_sub, Nat.cast_zero]
  rw [show sumE [] = EF.fin 0 from rfl, EF.div_fin_zero_zero, EF.sqrt_nan]

/-- A constant nonzero pnl series of length ≥ 3 has a zero-variance return
series; `calculate_risk_metrics` then *returns a report* (no error) whose
Sharpe ratio is `-∞` (division of a negative excess mean by a zero standard
deviation), whose Sortino ratio is `NaN` (standard deviation of an empty
downside series), and whose profit factor is `+∞` (the code's explicit
`float('inf')` when there are no losing days). -/
theorem constant_pnl_report (p : ℝ) (hp : p ≠ 0) (n : ℕ) (hn : 3 ≤ n) :
    (calculate_risk_metrics (List.replicate n (EF.fin p))).isSome = true ∧
      sharpeOf (calculate_risk_metrics (List.replicate n (EF.fin p))) =
        EF.ninf ∧
      sortinoOf (calculate_risk_metrics (List.replicate n (EF.fin p))) =
        EF.nan ∧
      profitFactorOf (calculate_risk_metrics (List.replicate n (EF.fin p))) =
        EF.pinf := by
  obtain ⟨m, rfl⟩ : ∃ m, n = m + 1 := ⟨n - 1, by omega⟩
  have hm : 2 ≤ m := by omega
  have hret : dropna (pct_change (List.replicate (m + 1) (EF.fin p))) =
      List.replicate m (EF.fin 0) := by
    rw [pct_change_replicate p hp m, dropna_cons_nan, dropna_replicate_fin]
  have hne : (List.replicate m (EF.fin 0)).isEmpty = false := by
    obtain ⟨k, rfl⟩ : ∃ k, m = k + 1 := ⟨m - 1, by omega⟩
    simp [List.replicate_succ]
  simp only [calculate_risk_metrics, hret, hne, Bool.false_eq_true, if_false,
    sharpeOf, sortinoOf, profitFactorOf, Option.elim, Option.isSome]
  refine ⟨trivial, ?_, ?_, ?_⟩
  · rw [List.map_replicate, EF.sub_fin_fin, meanE_replicate m (by omega),
      stdE_replicate_zero m hm, EF.mul_fin_fin]
    apply EF.div_fin_zero_neg
    have h252 : 0 < Real.sqrt 252 := Real.sqrt_pos.mpr (by norm_num)
    nlinarith
  · rw [filter_ltB_zero_replicate, stdE_nil, EF.div_nan_right]
  · rw [filter_ltB_zero_replicate]
    simp

/-- Claim C6, counterexample: the constant pnl series `[1, 1, 1]` has a
zero-variance derived return series, yet `calculate_risk_metrics` signals
no error — it returns a report whose Sharpe is `-∞`, Sortino `NaN` and
profit factor `+∞`. -/
theorem zero_variance_cx :
    (calculate_risk_metrics [EF.fin 1, EF.fin 1, EF.fin 1]).isSome = true ∧
      sharpeOf (calculate_risk_metrics [EF.fin 1, EF.fin 1, EF.fin 1]) =
        EF.ninf ∧
      sortinoOf (calculate_risk_metrics [EF.fin 1, EF.fin 1, EF.fin 1]) =
        EF.nan ∧
      profitFactorOf (calculate_risk_metrics [EF.fin 1, EF.fin 1, EF.fin 1]) =
        EF.pinf :=
  constant_pnl_report 1 (by norm_num) 3 (by norm_num)

/-- Claim C6 as amended: an *empty* table does signal an error (the
unhandled raise of `np.percentile` on an empty array), but a zero-variance
return series does not — every constant nonzero pnl series of length ≥ 3
silently yields a report containing `-∞` Sharpe, `NaN` Sortino and `+∞`
profit factor. -/
theorem degenerate_inputs_report (p : ℝ) (hp : p ≠ 0) (n : ℕ) (hn : 3 ≤ n) :
    calculate_risk_metrics ([] : List EF) = none ∧
      (calculate_risk_metrics (List.replicate n (EF.fin p))).isSome = true ∧
      sharpeOf (calculate_risk_metrics (List.replicate n (EF.fin p))) =
        EF.ninf ∧
      sortinoOf (calculate_risk_metrics (List.replicate n (EF.fin p))) =
        EF.nan ∧
      profitFactorOf (calculate_risk_metrics (List.replicate n (EF.fin p))) =
        EF.pinf := by
  obtain ⟨h1, h2, h3, h4⟩ := constant_pnl_report p hp n hn
  exact ⟨rfl, h1, h2, h3, h4⟩

/-- Witness for the amended Claim C6 at the constant series of three 1s. -/
theorem degenerate_inputs_report_witness :
    calculate_risk_metrics ([] : List EF) = none ∧
      (calculate_risk_metrics (List.replicate 3 (EF.fin 1))).isSome = true ∧
      sharpeOf (calculate_risk_metrics (List.replicate 3 (EF.fin 1))) =
        EF.ninf ∧
      sortinoOf (calculate_risk_metrics (List.replicate 3 (EF.fin 1))) =
        EF.nan ∧
      profitFactorOf (calculate_risk_metrics (List.replicate 3 (EF.fin 1))) =
        EF.pinf :=
  degenerate_inputs_report 1 (by norm_num) 3 (by norm_num)

end OptiAI
